import Mathlib

/-!
Shallow embedding of the game-rules core of src/tetris_enhanced.py (QuadDarv1ne's
Tetris-Enhanced), together with theorems settling the frozen claims about it.

Conventions of the embedding:
* Python ints become Lean Int; Python `%` on a positive modulus agrees with Int.emod,
  and Python `//` is Int.fdiv.
* The board grid is a List of rows of Option Kind, exactly as the Python grid holds
  None or a kind tag per cell.  Reads and writes use getD / List.set, which are
  total; every guarded access of the Python code stays in range, so the defaults
  are never observed on states the theorems quantify over.
* The only nondeterminism in the source is random.shuffle inside refill_bag; the
  shuffled permutation is injected as an explicit argument (a supply of refill
  lists), as the spec itself requires randomness to be injectable.
* pygame, rendering, audio, timing and the hard-drop easing animation are
  presentation-only; the animation is collapsed to its completed discrete effect
  (piece teleported to the target row, then locked), exactly the before/after poses
  the spec assigns to the core.  The float fields fall_interval and the
  hard_drop_* timers are omitted from the state for that reason.
-/

namespace Tetris

/-- The seven tetromino kinds, the keys of SHAPES in tetris_enhanced.py. -/
inductive Kind
  | I
  | O
  | T
  | S
  | Z
  | J
  | L
deriving DecidableEq, Repr, Fintype

/-- PLAY_COLS from tetris_enhanced.py. -/
def PLAY_COLS : Int := 10

/-- PLAY_ROWS from tetris_enhanced.py. -/
def PLAY_ROWS : Int := 20

/-- The 4x4 base shape of each kind, SHAPES in tetris_enhanced.py with a cell
character abstracted to true and a dot to false.  Note the source gives J and L
literally the same footprint. -/
def baseShape : Kind → List (List Bool)
  | .I => [[false, false, false, false],
           [true, true, true, true],
           [false, false, false, false],
           [false, false, false, false]]
  | .O => [[false, false, false, false],
           [false, true, true, false],
           [false, true, true, false],
           [false, false, false, false]]
  | .T => [[false, false, false, false],
           [false, true, true, true],
           [false, false, true, false],
           [false, false, false, false]]
  | .S => [[false, false, false, false],
           [false, false, true, true],
           [false, true, true, false],
           [false, false, false, false]]
  | .Z => [[false, false, false, false],
           [false, true, true, false],
           [false, false, true, true],
           [false, false, false, false]]
  | .J => [[false, false, false, false],
           [false, true, true, true],
           [false, true, false, false],
           [false, false, false, false]]
  | .L => [[false, false, false, false],
           [false, true, true, true],
           [false, true, false, false],
           [false, false, false, false]]

/-- ROTATIONS from tetris_enhanced.py: the retained rotation count per kind. -/
def rotationCount : Kind → Nat
  | .I => 2
  | .O => 1
  | .T => 4
  | .S => 2
  | .Z => 2
  | .J => 4
  | .L => 4

/-- rotate_shape from tetris_enhanced.py: the rotated grid has entry
new[r][c] = old[3-c][r]. -/
def rotate_shape (g : List (List Bool)) : List (List Bool) :=
  (List.range 4).map fun r => (List.range 4).map fun c => (g.getD (3 - c) []).getD r false

/-- build_rotations from tetris_enhanced.py: the base shape and its three further
rotations, de-duplicated keeping first occurrences, truncated to ROTATIONS[kind]. -/
def build_rotations (k : Kind) : List (List (List Bool)) :=
  let base := baseShape k
  let r1 := rotate_shape base
  let r2 := rotate_shape r1
  let r3 := rotate_shape r2
  let unique := [base, r1, r2, r3].foldl (fun acc r => if r ∈ acc then acc else acc ++ [r]) []
  unique.take (rotationCount k)

/-- ROTATED from tetris_enhanced.py. -/
def ROTATED (k : Kind) : List (List (List Bool)) := build_rotations k

/-- The Piece dataclass of tetris_enhanced.py: kind, column x, row y, rotation r. -/
structure Piece where
  kind : Kind
  x : Int
  y : Int
  r : Int
deriving DecidableEq, Repr

/-- Piece.grid from tetris_enhanced.py: ROTATED[kind][r % len(ROTATED[kind])]. -/
def Piece.grid (p : Piece) : List (List Bool) :=
  (ROTATED p.kind).getD (p.r % ((ROTATED p.kind).length : Int)).toNat []

/-- The occupied (i, j) offsets of a 4x4 shape grid, scanned like the nested
loops of Piece.cells (row j outer, column i inner). -/
def gridOffsets (g : List (List Bool)) : List (Int × Int) :=
  ((List.range 4).map fun j => (List.range 4).filterMap fun i =>
    if (g.getD j []).getD i false then some ((i : Int), (j : Int)) else none).flatten

/-- Piece.cells from tetris_enhanced.py: the absolute (x + i, y + j) board
coordinates of the occupied shape cells, in the loop order of the source. -/
def Piece.cells (p : Piece) : List (Int × Int) :=
  (gridOffsets p.grid).map fun c => (p.x + c.1, p.y + c.2)

/-- Board cell lookup grid[y][x], total via getD; all guarded uses stay in range. -/
def cellAt (g : List (List (Option Kind))) (y x : Int) : Option Kind :=
  (g.getD y.toNat []).getD x.toNat none

/-- Board cell write grid[y][x] = v, total via List.set. -/
def setCell (g : List (List (Option Kind))) (y x : Int) (v : Option Kind) :
    List (List (Option Kind)) :=
  g.set y.toNat ((g.getD y.toNat []).set x.toNat v)

/-- The GameState dataclass of tetris_enhanced.py restricted to its game-logic
fields.  The float fields fall_interval and the hard_drop animation timers are
presentation-layer timing and are omitted (see the header comment). -/
structure GameState where
  grid : List (List (Option Kind))
  bag : List Kind
  next_queue : List Kind
  hold : Option Kind
  can_hold : Bool
  current : Option Piece
  score : Int
  lines : Int
  level : Int
  combo : Int
  back_to_back : Bool
  game_over : Bool
  paused : Bool
deriving DecidableEq, Repr

/-- The GameState() dataclass defaults of tetris_enhanced.py. -/
def GameState.init : GameState where
  grid := List.replicate PLAY_ROWS.toNat (List.replicate PLAY_COLS.toNat none)
  bag := []
  next_queue := []
  hold := none
  can_hold := true
  current := none
  score := 0
  lines := 0
  level := 1
  combo := -1
  back_to_back := false
  game_over := false
  paused := false

/-- collides from tetris_enhanced.py: a cell outside the horizontal bounds or at
or below the bottom collides; a cell at row >= 0 collides with a locked cell. -/
def collides (s : GameState) (p : Piece) : Bool :=
  p.cells.any fun c =>
    if c.1 < 0 || PLAY_COLS ≤ c.1 || PLAY_ROWS ≤ c.2 then true
    else if 0 ≤ c.2 && (cellAt s.grid c.2 c.1).isSome then true
    else false

/-- The T-spin classification values returned by is_t_spin and try_rotate in
tetris_enhanced.py (the strings 'none' and 'tspin'). -/
inductive TSpin
  | none
  | tspin
deriving DecidableEq, Repr

/-- The occupancy test applied to each examined corner in is_t_spin of
tetris_enhanced.py: out of bounds in any direction, or holding a locked cell. -/
def cornerOccupied (s : GameState) (q : Int × Int) : Bool :=
  q.2 < 0 || q.1 < 0 || PLAY_COLS ≤ q.1 || PLAY_ROWS ≤ q.2 || (cellAt s.grid q.2 q.1).isSome

/-- The four corner cells examined by is_t_spin in tetris_enhanced.py:
(x, y), (x+2, y), (x, y+2), (x+2, y+2). -/
def tspinCorners (p : Piece) : List (Int × Int) :=
  [(p.x, p.y), (p.x + 2, p.y), (p.x, p.y + 2), (p.x + 2, p.y + 2)]

/-- is_t_spin from tetris_enhanced.py: for a T piece, classify as a T-spin when
at least 3 of the four examined corners are occupied; any other kind gives none.
The unused kicked argument of the source is dropped. -/
def is_t_spin (s : GameState) (p : Piece) : TSpin :=
  if p.kind ≠ Kind.T then TSpin.none
  else if 3 ≤ ((tspinCorners p).filter (cornerOccupied s)).length then TSpin.tspin
  else TSpin.none

/-- score_lines from tetris_enhanced.py.  int(pts * 1.5) is modelled as
pts * 3 / 2: pts is a positive machine integer at that point (base at least 100
plus a positive combo bonus), where the float product is exact and truncation
agrees with this division.  The fall_interval update next to the level update is
presentation timing and is omitted with the field. -/
def score_lines (s : GameState) (lines : Int) (tspin : TSpin) : GameState :=
  let pts : Int :=
    if tspin ≠ TSpin.none then
      if lines = 1 then 400 else if lines = 2 then 700 else 100
    else
      if lines = 1 then 100 else if lines = 2 then 300 else if lines = 3 then 500
      else if 4 ≤ lines then 800 else 0
  let b2b_candidate : Bool := if tspin ≠ TSpin.none then true else decide (4 ≤ lines)
  if 0 < lines then
    let combo := s.combo + 1
    let pts := if 0 < combo then pts + 50 * combo else pts
    let pb : Int × Bool :=
      if b2b_candidate then ((if s.back_to_back then pts * 3 / 2 else pts), true)
      else (pts, false)
    let newLines := s.lines + lines
    let newLevel := if s.level < newLines / 10 + 1 then newLines / 10 + 1 else s.level
    { s with combo := combo, back_to_back := pb.2, lines := newLines, level := newLevel,
             score := s.score + pb.1 }
  else
    { s with combo := -1, back_to_back := false, score := s.score + pts }

/-- clear_lines from tetris_enhanced.py: keep the rows with an empty cell,
prepend that many fresh empty rows, report the removed count. -/
def clear_lines (s : GameState) : GameState × Int :=
  let new_grid := s.grid.filter fun row => row.any fun c => c.isNone
  let cleared : Int := PLAY_ROWS - (new_grid.length : Int)
  ({ s with grid :=
      List.replicate (PLAY_ROWS.toNat - new_grid.length) (List.replicate PLAY_COLS.toNat none)
        ++ new_grid },
   cleared)

/-- refill_bag from tetris_enhanced.py, with the shuffled permutation of the
seven kinds injected as the argument perm. -/
def refill_bag (perm : List Kind) (s : GameState) : GameState :=
  { s with bag := s.bag ++ perm }

/-- One iteration of the replenishment loop in spawn_next of tetris_enhanced.py:
refill the bag from the supply when empty, then move the front bag kind to the
back of the next queue.  An exhausted supply leaves the state unchanged where
the source would raise on pop; every refill of the source appends seven kinds,
so that branch is unreachable under the theorems' hypotheses. -/
def drawOne : GameState × List (List Kind) → GameState × List (List Kind)
  | (s, perms) =>
    let sp : GameState × List (List Kind) :=
      if s.bag.isEmpty then (refill_bag (perms.headD []) s, perms.tail) else (s, perms)
    match sp.1.bag with
    | [] => sp
    | k :: rest => ({ sp.1 with bag := rest, next_queue := sp.1.next_queue ++ [k] }, sp.2)

/-- The while-loop of spawn_next in tetris_enhanced.py: draw until the next
queue holds 5 kinds.  Each successful draw grows the queue by one, so at most
five iterations ever run; the fuel of 5 is exact, not an approximation. -/
def fillQueue : Nat → GameState × List (List Kind) → GameState × List (List Kind)
  | 0, sp => sp
  | n + 1, sp => if sp.1.next_queue.length < 5 then fillQueue n (drawOne sp) else sp

/-- spawn_x from tetris_enhanced.py (literally 3 for every kind). -/
def spawn_x (k : Kind) : Int :=
  if k ≠ Kind.I then 3 else 3

/-- spawn_next from tetris_enhanced.py: replenish the queue, pop its front kind,
build the piece at (spawn_x kind, -2, rotation 0), set game_over when it
collides, and install it as current in either case. -/
def spawn_next (s : GameState) (perms : List (List Kind)) :
    GameState × List (List Kind) :=
  let sp := fillQueue 5 (s, perms)
  match sp.1.next_queue with
  | [] => sp
  | kind :: rest =>
    let p : Piece := ⟨kind, spawn_x kind, -2, 0⟩
    let s2 := { sp.1 with next_queue := rest }
    let s3 := if collides s2 p then { s2 with game_over := true } else s2
    ({ s3 with current := some p }, sp.2)

/-- The cell-writing loop of lock_piece in tetris_enhanced.py: write the kind
into each cell in order, aborting with the game-over signal at the first cell
with row < 0, leaving the grid as written so far. -/
def lockLoop (k : Kind) : List (List (Option Kind)) → List (Int × Int) →
    List (List (Option Kind)) × Bool
  | g, [] => (g, false)
  | g, c :: rest =>
    if c.2 < 0 then (g, true) else lockLoop k (setCell g c.2 c.1 (some k)) rest

/-- lock_piece from tetris_enhanced.py: write the current piece into the grid
(aborting into game over when a cell lies above the top), clear full lines,
re-enable hold, drop the current piece and spawn the next one; returns the
cleared line count (0 on the abort paths). -/
def lock_piece (perms : List (List Kind)) (s : GameState) : GameState × Int :=
  match s.current with
  | none => (s, 0)
  | some p =>
    match lockLoop p.kind s.grid p.cells with
    | (g, true) => ({ s with grid := g, game_over := true }, 0)
    | (g, false) =>
      let sc := clear_lines { s with grid := g }
      let s2 := { sc.1 with can_hold := true, current := none }
      ((spawn_next s2 perms).1, sc.2)

/-- try_move from tetris_enhanced.py: install the translated piece when it does
not collide. -/
def try_move (s : GameState) (dx dy : Int) : GameState × Bool :=
  match s.current with
  | none => (s, false)
  | some cur =>
    let p : Piece := ⟨cur.kind, cur.x + dx, cur.y + dy, cur.r⟩
    if !collides s p then ({ s with current := some p }, true) else (s, false)

/-- The JLTSZ entry of KICKS in tetris_enhanced.py, keyed by the
(from, to) rotation pair. -/
def kicks_JLTSZ : Nat × Nat → Option (List (Int × Int))
  | (0, 1) => some [(0, 0), (-1, 0), (-1, -1), (0, 2), (-1, 2)]
  | (1, 0) => some [(0, 0), (1, 0), (1, 1), (0, -2), (1, -2)]
  | (1, 2) => some [(0, 0), (1, 0), (1, -1), (0, 2), (1, 2)]
  | (2, 1) => some [(0, 0), (-1, 0), (-1, 1), (0, -2), (-1, -2)]
  | (2, 3) => some [(0, 0), (1, 0), (1, 1), (0, -2), (1, -2)]
  | (3, 2) => some [(0, 0), (-1, 0), (-1, -1), (0, 2), (-1, 2)]
  | (3, 0) => some [(0, 0), (-1, 0), (-1, 1), (0, -2), (-1, -2)]
  | (0, 3) => some [(0, 0), (1, 0), (1, -1), (0, 2), (1, 2)]
  | _ => none

/-- The I entry of KICKS in tetris_enhanced.py. -/
def kicks_I : Nat × Nat → Option (List (Int × Int))
  | (0, 1) => some [(0, 0), (-2, 0), (1, 0), (-2, -1), (1, 2)]
  | (1, 0) => some [(0, 0), (2, 0), (-1, 0), (2, 1), (-1, -2)]
  | (1, 2) => some [(0, 0), (-1, 0), (2, 0), (-1, 2), (2, -1)]
  | (2, 1) => some [(0, 0), (1, 0), (-2, 0), (1, -2), (-2, 1)]
  | (2, 3) => some [(0, 0), (2, 0), (-1, 0), (2, 1), (-1, -2)]
  | (3, 2) => some [(0, 0), (-2, 0), (1, 0), (-2, -1), (1, 2)]
  | (3, 0) => some [(0, 0), (1, 0), (-2, 0), (1, -2), (-2, 1)]
  | (0, 3) => some [(0, 0), (-1, 0), (2, 0), (-1, 2), (2, -1)]
  | _ => none

/-- The raw table lookup of try_rotate: KICKS family by kind, then the
(from, to) pair.  Both rotation indices lie in [0, 4), so keying by toNat is
faithful to the Python integer pair key. -/
def kicksRaw (k : Kind) (from_r to_r : Int) : Option (List (Int × Int)) :=
  if k = Kind.I then kicks_I (from_r.toNat, to_r.toNat)
  else kicks_JLTSZ (from_r.toNat, to_r.toNat)

/-- The kick candidate list of try_rotate in tetris_enhanced.py, defaulting to
the single zero offset when the pair is unlisted. -/
def kicksFor (k : Kind) (from_r to_r : Int) : List (Int × Int) :=
  (kicksRaw k from_r to_r).getD [(0, 0)]

/-- The target rotation index of try_rotate: (r + dr) mod the rotation count. -/
def rotTarget (cur : Piece) (dr : Int) : Int :=
  (cur.r + dr) % ((ROTATED cur.kind).length : Int)

/-- A kick candidate piece of try_rotate: the current position offset by the
kick, at the target rotation. -/
def rotCand (cur : Piece) (to_r : Int) (off : Int × Int) : Piece :=
  ⟨cur.kind, cur.x + off.1, cur.y + off.2, to_r⟩

/-- The candidate loop of try_rotate in tetris_enhanced.py: install the first
non-colliding candidate and report its T-spin classification; fail leaving the
state unchanged when all candidates collide. -/
def rotateLoop (s : GameState) (cur : Piece) (to_r : Int) :
    List (Int × Int) → GameState × Bool × TSpin
  | [] => (s, false, TSpin.none)
  | off :: rest =>
    let cand := rotCand cur to_r off
    if !collides s cand then ({ s with current := some cand }, true, is_t_spin s cand)
    else rotateLoop s cur to_r rest

/-- try_rotate from tetris_enhanced.py. -/
def try_rotate (s : GameState) (dr : Int) : GameState × Bool × TSpin :=
  match s.current with
  | none => (s, false, TSpin.none)
  | some cur =>
    let n : Int := ((ROTATED cur.kind).length : Int)
    rotateLoop s cur (rotTarget cur dr) (kicksFor cur.kind (cur.r % n) (rotTarget cur dr))

/-- Downward translation of a piece by d rows, the candidate construction used
in hard_drop_distance and ghost_position of tetris_enhanced.py. -/
def descend (p : Piece) (d : Int) : Piece :=
  ⟨p.kind, p.x, p.y + d, p.r⟩

/-- The while-True loop of hard_drop_distance in tetris_enhanced.py, with an
explicit fuel.  The loop body is exactly the source's: stop at the first d with
a collision one row further down, else increment.  The fuel passed by
hard_drop_distance is large enough that the loop always exits through the
collision test (proved in the claim theorems), so the fuel is a totalization
device, not a behavior change. -/
def hddLoop (s : GameState) (p : Piece) : Nat → Nat → Nat
  | dist, 0 => dist
  | dist, fuel + 1 =>
    if collides s (descend p ((dist : Int) + 1)) then dist
    else hddLoop s p (dist + 1) fuel

/-- hard_drop_distance from tetris_enhanced.py. -/
def hard_drop_distance (s : GameState) : Nat :=
  match s.current with
  | none => 0
  | some p => hddLoop s p 0 ((PLAY_ROWS - p.y).toNat + 1)

/-- ghost_position from tetris_enhanced.py, on a state with a current piece. -/
def ghost_position (s : GameState) (p : Piece) : Piece :=
  descend p (hard_drop_distance s)

/-- hold_swap from tetris_enhanced.py: a no-op without a current piece or with
hold spent; an empty hold slot stores the kind and spawns from the queue, an
occupied one swaps kinds respawning at the spawn pose, flagging game over when
the respawned piece collides; both branches spend the hold. -/
def hold_swap (perms : List (List Kind)) (s : GameState) :
    GameState × List (List Kind) :=
  match s.current with
  | none => (s, perms)
  | some cur =>
    if !s.can_hold then (s, perms)
    else
      match s.hold with
      | none =>
        let sp := spawn_next { s with hold := some cur.kind } perms
        ({ sp.1 with can_hold := false }, sp.2)
      | some h =>
        let p : Piece := ⟨h, spawn_x h, -2, 0⟩
        let s1 := { s with current := some p, hold := some cur.kind }
        let s2 := if collides s1 p then { s1 with game_over := true } else s1
        ({ s2 with can_hold := false }, perms)

/-- new_game from tetris_enhanced.py: fresh defaults, the chosen start level,
one bag refill, then the first spawn.  The first supply entry feeds the
explicit refill_bag call, the rest feed any refill inside spawn_next. -/
def new_game (start_level : Int) (perms : List (List Kind)) : GameState :=
  (spawn_next (refill_bag (perms.headD []) { GameState.init with level := start_level })
    perms.tail).1

/-- The gravity lock branch of the run loop (tetris_enhanced.py lines 948-952):
when the piece cannot fall it is locked, and a positive clear count is scored
with the T-spin argument fixed to the source's literal 'none'. -/
def gravityLockStep (perms : List (List Kind)) (s : GameState) : GameState :=
  let sc := lock_piece perms s
  if 0 < sc.2 then score_lines sc.1 sc.2 TSpin.none else sc.1

/-- The hard-drop path of the run loop (tetris_enhanced.py lines 850-865 and
899-912), with the easing animation collapsed to its completed discrete effect:
for a positive drop distance d the score is raised by 2*d immediately, the
piece is placed at the landing row, and lock_piece runs; no scoring call
follows the lock on this path.  A zero distance leaves the state unchanged. -/
def hardDropStep (perms : List (List Kind)) (s : GameState) : GameState :=
  match s.current with
  | none => s
  | some p =>
    let d : Int := (hard_drop_distance s : Int)
    if 0 < d then
      (lock_piece perms { s with score := s.score + 2 * d, current := some (descend p d) }).1
    else s

/-- The gameplay inputs dispatched by the run loop's KEYDOWN handler. -/
inductive GameInput
  | moveLeft
  | moveRight
  | rotateCW
  | rotateCCW
  | rotate180
  | holdPiece

/-- The run loop's event dispatch for gameplay keys (tetris_enhanced.py lines
826-869): when the game-over or pause flag is set the handler skips the key
(continue), otherwise it invokes the matching operation. -/
def handleGameInput (perms : List (List Kind)) (s : GameState) (inp : GameInput) :
    GameState :=
  if s.game_over || s.paused then s
  else
    match inp with
    | .moveLeft => (try_move s (-1) 0).1
    | .moveRight => (try_move s 1 0).1
    | .rotateCW => (try_rotate s 1).1
    | .rotateCCW => (try_rotate s (-1)).1
    | .rotate180 => (try_rotate s 2).1
    | .holdPiece => (hold_swap perms s).1

/-- The piece sub-dictionary written by GameState.to_dict in tetris_enhanced.py
(keys kind, x, y, r). -/
structure SavedPiece where
  kind : Kind
  x : Int
  y : Int
  r : Int
deriving DecidableEq, Repr

/-- The JSON save dictionary handled by GameState.to_dict / from_dict in
tetris_enhanced.py.  A field holds none when its key is absent, matching the
d.get defaults of from_dict; since JSON null and an absent key both read back
as Python None for the hold and current keys, those carry their optional value
inside the field.  The model covers dictionaries whose present values are
well-typed (valid kind tags, complete piece sub-dictionaries); other inputs
raise inside json/from_dict and are caught by load_game, which returns None.
Value-level validation (board dimensions among it) has no representation here
because from_dict performs none. -/
structure SaveData where
  grid : Option (List (List (Option Kind)))
  bag : Option (List Kind)
  next_queue : Option (List Kind)
  hold : Option Kind
  can_hold : Option Bool
  current : Option SavedPiece
  score : Option Int
  lines : Option Int
  level : Option Int
  combo : Option Int
  back_to_back : Option Bool
  game_over : Option Bool
deriving DecidableEq, Repr

/-- GameState.to_dict from tetris_enhanced.py: every persisted field copied
verbatim. -/
def to_dict (s : GameState) : SaveData where
  grid := some s.grid
  bag := some s.bag
  next_queue := some s.next_queue
  hold := s.hold
  can_hold := some s.can_hold
  current := s.current.map fun p => ⟨p.kind, p.x, p.y, p.r⟩
  score := some s.score
  lines := some s.lines
  level := some s.level
  combo := some s.combo
  back_to_back := some s.back_to_back
  game_over := some s.game_over

/-- GameState.from_dict from tetris_enhanced.py: start from the dataclass
defaults and overwrite each field present in the dictionary, with no
validation of dimensions or invariants.  The fall_interval recomputation is
presentation timing and is omitted with the field. -/
def from_dict (d : SaveData) : GameState where
  grid := d.grid.getD GameState.init.grid
  bag := d.bag.getD []
  next_queue := d.next_queue.getD []
  hold := d.hold
  can_hold := d.can_hold.getD true
  current := d.current.map fun c => ⟨c.kind, c.x, c.y, c.r⟩
  score := d.score.getD 0
  lines := d.lines.getD 0
  level := d.level.getD 1
  combo := d.combo.getD (-1)
  back_to_back := d.back_to_back.getD false
  game_over := d.game_over.getD false
  paused := false

/-- Modelled from the words of claim C3 and spec section 4.4 for comparison
with is_t_spin: the stem-joint cell of the T piece (the occupied cell adjacent
to the other three) per rotation index, as an offset into the 4x4 frame.  The
values are read off ROTATED T and certified by tspin_center_is_stem below. -/
def tCenterOffset (r : Int) : Int × Int :=
  match (r % 4).toNat with
  | 0 => (2, 1)
  | 1 => (2, 2)
  | 2 => (1, 2)
  | _ => (1, 1)

/-- Modelled from the words of claim C3 and spec section 4.4: classify a T-spin
by the four diagonal neighbors of the T piece's center cell, occupied meaning
out of bounds or locked, threshold 3 of 4; declared for comparison against the
source's is_t_spin, not taken from the source. -/
def is_t_spin_specModel (s : GameState) (p : Piece) : TSpin :=
  if p.kind ≠ Kind.T then TSpin.none
  else
    let c := tCenterOffset p.r
    let cx := p.x + c.1
    let cy := p.y + c.2
    let corners : List (Int × Int) :=
      [(cx - 1, cy - 1), (cx + 1, cy - 1), (cx - 1, cy + 1), (cx + 1, cy + 1)]
    if 3 ≤ (corners.filter (cornerOccupied s)).length then TSpin.tspin
    else TSpin.none

/-- Lays locked cells (col, row) into a grid, for the concrete scenarios below. -/
def placeCells (l : List (Int × Int)) (g : List (List (Option Kind))) :
    List (List (Option Kind)) :=
  l.foldl (fun acc c => setCell acc c.2 c.1 (some Kind.I)) g

/-- A state whose T piece at rotation 3 can rotate into a pose whose examined
corners (the fixed 3x3 box of the frame) hold 3 locked cells while the diagonal
neighbors of the T's center cell are all free. -/
def cex3 : GameState :=
  { GameState.init with
      grid := placeCells [(3, 5), (5, 5), (3, 7)] GameState.init.grid
      current := some ⟨Kind.T, 3, 5, 3⟩ }

/-- A state in which rotating the T piece clockwise succeeds into a
3-corner-occupied pose (a classified T-spin), and the locked pose completes
row 18 for a single line clear. -/
def s0C1 : GameState :=
  { GameState.init with
      grid := placeCells
        [(0, 17), (2, 17), (0, 19), (0, 18), (4, 18), (5, 18), (6, 18), (7, 18), (8, 18), (9, 18)]
        GameState.init.grid
      next_queue := [Kind.I, Kind.I, Kind.I, Kind.I, Kind.I]
      current := some ⟨Kind.T, 0, 17, 3⟩ }

/-- The state s0C1 after its successful clockwise rotation: the T sits in the
T-spin pose that will clear one line when locked. -/
def s1C1 : GameState :=
  { s0C1 with current := some ⟨Kind.T, 0, 17, 0⟩ }

/-- A state whose O piece hangs above a single locked cell at (4, 10) with free
rows below it: the drop loop stops on top of the overhang although deeper
translations are also collision-free. -/
def cex10 : GameState :=
  { GameState.init with
      grid := placeCells [(4, 10)] GameState.init.grid
      current := some ⟨Kind.O, 3, 0, 0⟩ }

/-- A state whose next spawn (an O piece) collides immediately: the locked cell
at (4, 0) overlaps the spawn footprint. -/
def cex6 : GameState :=
  { GameState.init with
      grid := placeCells [(4, 0)] GameState.init.grid
      next_queue := [Kind.O, Kind.I, Kind.T, Kind.S, Kind.Z] }

/-- A game-over state that still carries a freely movable current piece, as the
source leaves behind after a lock-induced or spawn-induced game over. -/
def cex7 : GameState :=
  { GameState.init with
      game_over := true
      current := some ⟨Kind.T, 3, 5, 0⟩ }

/-- A state where the first kick candidate of the clockwise T rotation is
blocked by the locked cell at (5, 7) and the second candidate is free. -/
def wit5 : GameState :=
  { GameState.init with
      grid := placeCells [(5, 7)] GameState.init.grid
      current := some ⟨Kind.T, 3, 5, 0⟩ }

/-- A state whose only piece cells lie above the visible board, so locking it
must abort into game over. -/
def wit4 : GameState :=
  { GameState.init with current := some ⟨Kind.I, 3, -2, 0⟩ }

/-- A malformed save dictionary: a grid key holding zero rows instead of the
20 x 10 board, every other key absent. -/
def dbad8 : SaveData :=
  ⟨some [], none, none, none, none, none, none, none, none, none, none, none⟩

/-- The identity permutation of the seven kinds, used as an injected shuffle. -/
def basePerm : List Kind :=
  [Kind.I, Kind.O, Kind.T, Kind.S, Kind.Z, Kind.J, Kind.L]

/-- Sanity check of the embedded shape catalog: the startup de-duplication of
build_rotations retains exactly the ROTATIONS counts of the source. -/
theorem rotated_length : ∀ k : Kind, (ROTATED k).length = rotationCount k := by decide

/-- Shape facts used throughout: every retained rotation grid of every kind has
an occupied offset, offsets are listed with nondecreasing row because the row
loop of Piece.cells is the outer one, and offsets are nonnegative. -/
theorem shape_offsets_facts :
    ∀ k : Kind, ∀ g ∈ ROTATED k,
      gridOffsets g ≠ [] ∧
      (gridOffsets g).Pairwise (fun a b => a.2 ≤ b.2) ∧
      ∀ c ∈ gridOffsets g, 0 ≤ c.1 ∧ 0 ≤ c.2 := by decide

/-- Sanity check of the modelled T center: in every rotation the center offset
is an occupied cell of the T grid and the three other occupied cells are
exactly its orthogonal neighbors. -/
theorem tCenterOffset_is_stem :
    ∀ i ∈ List.range 4,
      tCenterOffset (i : Int) ∈ gridOffsets ((ROTATED Kind.T).getD i []) ∧
      ((gridOffsets ((ROTATED Kind.T).getD i [])).filter
          (fun c => c ≠ tCenterOffset (i : Int))).all
        (fun c => (c.1 - (tCenterOffset (i : Int)).1).natAbs
          + (c.2 - (tCenterOffset (i : Int)).2).natAbs = 1) := by decide

/-- The rotation grid of a piece is one of the catalog grids of its kind. -/
theorem grid_mem (p : Piece) : p.grid ∈ ROTATED p.kind := by
  have hlen : 1 ≤ (ROTATED p.kind).length := by
    rw [rotated_length]; cases p.kind <;> simp [rotationCount]
  have hn : (0 : Int) < ((ROTATED p.kind).length : Int) := by exact_mod_cast hlen
  have h0 : 0 ≤ p.r % ((ROTATED p.kind).length : Int) := Int.emod_nonneg _ (by omega)
  have h1 : p.r % ((ROTATED p.kind).length : Int) < ((ROTATED p.kind).length : Int) :=
    Int.emod_lt_of_pos _ hn
  have hlt : (p.r % ((ROTATED p.kind).length : Int)).toNat < (ROTATED p.kind).length := by
    omega
  rw [Piece.grid, List.getD_eq_getElem?_getD, List.getElem?_eq_getElem hlt, Option.getD_some]
  exact List.getElem_mem hlt

/-- Every piece occupies at least one cell. -/
theorem cells_ne_nil (p : Piece) : p.cells ≠ [] := by
  have h := (shape_offsets_facts p.kind p.grid (grid_mem p)).1
  simpa [Piece.cells] using h

/-- Every cell of a piece lies at or below the piece's own row. -/
theorem cells_y_lb (p : Piece) : ∀ c ∈ p.cells, p.y ≤ c.2 := by
  intro c hc
  rw [Piece.cells, List.mem_map] at hc
  obtain ⟨o, ho, rfl⟩ := hc
  have h := ((shape_offsets_facts p.kind p.grid (grid_mem p)).2.2 o ho).2
  simpa using by omega

/-- The cells of a piece are listed with nondecreasing row. -/
theorem cells_pairwise_y (p : Piece) : p.cells.Pairwise (fun a b => a.2 ≤ b.2) := by
  have h := (shape_offsets_facts p.kind p.grid (grid_mem p)).2.1
  rw [Piece.cells, List.pairwise_map]
  exact h.imp (by intro a b hab; simpa using by omega)

/-- A piece whose row is at or past the bottom bound always collides. -/
theorem collides_true_of_row (s : GameState) (p : Piece) (h : PLAY_ROWS ≤ p.y) :
    collides s p = true := by
  obtain ⟨c, hc⟩ := List.exists_mem_of_ne_nil _ (cells_ne_nil p)
  have hy : PLAY_ROWS ≤ c.2 := le_trans h (cells_y_lb p c hc)
  rw [collides, List.any_eq_true]
  exact ⟨c, hc, by simp [hy]⟩

/-- Collision only reads the grid, so states with equal grids agree on it. -/
theorem collides_eq_of_grid (s t : GameState) (p : Piece) (h : s.grid = t.grid) :
    collides s p = collides t p := by
  simp only [collides, h]

/-- The candidate loop of try_rotate installs exactly the first non-colliding
kick candidate, in list order, and fails leaving the state unchanged when none
qualifies. -/
theorem rotateLoop_eq_find (s : GameState) (cur : Piece) (to_r : Int) :
    ∀ l : List (Int × Int),
      rotateLoop s cur to_r l =
        match l.find? (fun off => !collides s (rotCand cur to_r off)) with
        | none => (s, false, TSpin.none)
        | some off =>
          ({ s with current := some (rotCand cur to_r off) }, true,
           is_t_spin s (rotCand cur to_r off))
  | [] => rfl
  | off :: rest => by
    by_cases h : collides s (rotCand cur to_r off)
    · rw [rotateLoop, List.find?_cons_of_neg _ (by simp [h])]
      simpa [h] using rotateLoop_eq_find s cur to_r rest
    · rw [rotateLoop, List.find?_cons_of_pos _ (by simp [h])]
      simp [h]

/-- One bag draw only touches the bag and the next queue. -/
theorem drawOne_shape (sp : GameState × List (List Kind)) :
    ∃ b q, (drawOne sp).1 = { sp.1 with bag := b, next_queue := q } := by
  obtain ⟨s, perms⟩ := sp
  by_cases hb : s.bag.isEmpty
  · have hnil : s.bag = [] := List.isEmpty_iff.mp hb
    rcases perms with _ | ⟨ph, pt⟩
    · exact ⟨[], s.next_queue, by simp [drawOne, hb, refill_bag, hnil]⟩
    · rcases ph with _ | ⟨k, rest⟩
      · exact ⟨[], s.next_queue, by simp [drawOne, hb, refill_bag, hnil]⟩
      · exact ⟨rest, s.next_queue ++ [k], by simp [drawOne, hb, refill_bag, hnil]⟩
  · cases hbag : s.bag with
    | nil => simp [hbag] at hb
    | cons k rest =>
      exact ⟨rest, s.next_queue ++ [k], by simp [drawOne, hb, hbag]⟩

/-- The queue replenishment loop only touches the bag and the next queue. -/
theorem fillQueue_shape (n : Nat) (sp : GameState × List (List Kind)) :
    ∃ b q, (fillQueue n sp).1 = { sp.1 with bag := b, next_queue := q } := by
  induction n generalizing sp with
  | zero => exact ⟨sp.1.bag, sp.1.next_queue, rfl⟩
  | succ n ih =>
    rw [fillQueue]
    split
    · obtain ⟨b1, q1, h1⟩ := drawOne_shape sp
      obtain ⟨b2, q2, h2⟩ := ih (drawOne sp)
      exact ⟨b2, q2, by rw [h2, h1]⟩
    · exact ⟨sp.1.bag, sp.1.next_queue, rfl⟩

/-- Spawning only touches the bag, the queue, the current piece and the
game-over flag. -/
theorem spawn_next_shape (s : GameState) (perms : List (List Kind)) :
    ∃ b q c go, (spawn_next s perms).1 =
      { s with bag := b, next_queue := q, current := c, game_over := go } := by
  obtain ⟨b, q, h⟩ := fillQueue_shape 5 (s, perms)
  simp only [spawn_next]
  generalize hg : fillQueue 5 (s, perms) = sp at h ⊢
  obtain ⟨s1, ps1⟩ := sp
  simp only at h
  subst h
  cases q with
  | nil => exact ⟨b, [], s.current, s.game_over, rfl⟩
  | cons k rest =>
    by_cases hcol :
        collides { s with bag := b, next_queue := rest } ⟨k, spawn_x k, -2, 0⟩
    · exact ⟨b, rest, some ⟨k, spawn_x k, -2, 0⟩, true, by simp [hcol]⟩
    · exact ⟨b, rest, some ⟨k, spawn_x k, -2, 0⟩, s.game_over, by simp [hcol]⟩

/-- Spawning never clears an already set game-over flag. -/
theorem spawn_next_game_over (s : GameState) (perms : List (List Kind))
    (h : s.game_over = true) : (spawn_next s perms).1.game_over = true := by
  obtain ⟨b, q, hf⟩ := fillQueue_shape 5 (s, perms)
  simp only [spawn_next]
  generalize hg : fillQueue 5 (s, perms) = sp at hf ⊢
  obtain ⟨s1, ps1⟩ := sp
  simp only at hf
  subst hf
  cases q with
  | nil => exact h
  | cons k rest =>
    by_cases hcol :
        collides { s with bag := b, next_queue := rest } ⟨k, spawn_x k, -2, 0⟩
    · simp [hcol]
    · simp [hcol, h]

/-- Locking only touches the grid, bag, queue, current piece, hold
availability and the game-over flag. -/
theorem lock_piece_shape (perms : List (List Kind)) (s : GameState) :
    ∃ g b q c ch go, (lock_piece perms s).1 =
      { s with grid := g, bag := b, next_queue := q, current := c,
               can_hold := ch, game_over := go } := by
  cases hc : s.current with
  | none =>
    refine ⟨s.grid, s.bag, s.next_queue, none, s.can_hold, s.game_over, ?_⟩
    simp only [lock_piece, hc]
    rw [← hc]
  | some p =>
    rcases hlk : lockLoop p.kind s.grid p.cells with ⟨g, ab⟩
    cases ab with
    | true =>
      exact ⟨g, s.bag, s.next_queue, s.current, s.can_hold, true,
        by simp [lock_piece, hc, hlk]⟩
    | false =>
      obtain ⟨b, q, c, go, hs⟩ := spawn_next_shape
        { (clear_lines { s with grid := g }).1 with can_hold := true, current := none } perms
      exact ⟨(clear_lines { s with grid := g }).1.grid, b, q, c, true, go, by
        simp only [lock_piece, hc, hlk]
        exact hs⟩

/-- The fields of the state untouched by a lock: score, streaks, line and level
counters, the hold slot and the pause flag. -/
theorem lock_piece_fields (perms : List (List Kind)) (s : GameState) :
    (lock_piece perms s).1.score = s.score ∧ (lock_piece perms s).1.combo = s.combo ∧
    (lock_piece perms s).1.back_to_back = s.back_to_back ∧
    (lock_piece perms s).1.lines = s.lines ∧ (lock_piece perms s).1.level = s.level ∧
    (lock_piece perms s).1.hold = s.hold ∧ (lock_piece perms s).1.paused = s.paused := by
  obtain ⟨g, b, q, c, ch, go, h⟩ := lock_piece_shape perms s
  rw [h]
  exact ⟨rfl, rfl, rfl, rfl, rfl, rfl, rfl⟩

/-- The drop loop exits through its collision test whenever a collision exists
within the fuel. -/
theorem hddLoop_stops (s : GameState) (p : Piece) :
    ∀ fuel dist, (∃ e < fuel, collides s (descend p (((dist + e : Nat) : Int) + 1)) = true) →
      collides s (descend p (((hddLoop s p dist fuel : Nat) : Int) + 1)) = true
  | 0, dist, h => absurd h (by rintro ⟨e, he, -⟩; omega)
  | fuel + 1, dist, h => by
    rw [hddLoop]
    by_cases hcol : collides s (descend p ((dist : Int) + 1)) = true
    · rw [if_pos hcol]; exact hcol
    · obtain ⟨e, he, hce⟩ := h
      rw [if_neg hcol]
      apply hddLoop_stops s p fuel (dist + 1)
      rcases e with _ | e2
      · exact absurd (by simpa using hce) hcol
      · refine ⟨e2, by omega, ?_⟩
        have harg : (((dist + 1) + e2 : Nat) : Int) + 1 = ((dist + (e2 + 1) : Nat) : Int) + 1 := by
          push_cast; ring
        rw [harg]
        exact hce

/-- Every row the drop loop has stepped through is collision-free. -/
theorem hddLoop_min (s : GameState) (p : Piece) :
    ∀ fuel dist k, dist < k → k ≤ hddLoop s p dist fuel →
      collides s (descend p (k : Int)) = false
  | 0, dist, k, hlt, hle => by
    rw [hddLoop] at hle; omega
  | fuel + 1, dist, k, hlt, hle => by
    rw [hddLoop] at hle
    by_cases hcol : collides s (descend p ((dist : Int) + 1)) = true
    · rw [if_pos hcol] at hle; omega
    · rw [if_neg hcol] at hle
      rcases Nat.lt_or_ge (dist + 1) k with h1 | h2
      · exact hddLoop_min s p fuel (dist + 1) k h1 hle
      · have hk : k = dist + 1 := by omega
        subst hk
        have harg : ((dist + 1 : Nat) : Int) = (dist : Int) + 1 := by push_cast; ring
        rw [harg]
        exact Bool.eq_false_iff.mpr hcol

/-- The drop loop never passes a row whose next row collides. -/
theorem hddLoop_le (s : GameState) (p : Piece) :
    ∀ (fuel dist d : Nat), dist ≤ d → collides s (descend p ((d : Int) + 1)) = true →
      hddLoop s p dist fuel ≤ d
  | 0, dist, d, hle, _ => by rw [hddLoop]; exact hle
  | fuel + 1, dist, d, hle, hcolld => by
    rw [hddLoop]
    by_cases hcol : collides s (descend p ((dist : Int) + 1)) = true
    · rw [if_pos hcol]; exact hle
    · rw [if_neg hcol]
      refine hddLoop_le s p fuel (dist + 1) d ?_ hcolld
      rcases Nat.eq_or_lt_of_le hle with h | h
      · subst h; exact absurd hcolld hcol
      · omega

/-- A collision is guaranteed once the descended piece's row passes the bottom
bound, giving the drop loop its exit within the fuel. -/
theorem descend_coll (s : GameState) (p : Piece) (m : Int) (h : PLAY_ROWS ≤ p.y + m) :
    collides s (descend p m) = true :=
  collides_true_of_row s (descend p m) h

/-- C10: hard_drop_distance is total and the loop exits through its collision
test: the returned d has a collision one row further down, every translation by
1..d is collision-free, and d is bounded by the board row count plus the frame
height for any piece at or above spawn depth.  The claim's characterization of
d as the maximum collision-free downward translation fails (see the
counterexample): d is the count of consecutive collision-free rows immediately
below the piece, which an overhang with free space under it makes smaller than
the maximum. -/
theorem C10_thm (s : GameState) (p : Piece) (hc : s.current = some p) :
    collides s (descend p ((hard_drop_distance s : Int) + 1)) = true ∧
    (∀ k : Nat, 1 ≤ k → k ≤ hard_drop_distance s →
      collides s (descend p (k : Int)) = false) ∧
    (-4 ≤ p.y → (hard_drop_distance s : Int) ≤ PLAY_ROWS + 4) := by
  have hd : hard_drop_distance s = hddLoop s p 0 ((PLAY_ROWS - p.y).toNat + 1) := by
    simp [hard_drop_distance, hc]
  have hex : collides s (descend p (((0 + (PLAY_ROWS - p.y - 1).toNat : Nat) : Int) + 1))
      = true := by
    apply descend_coll
    have := Int.self_le_toNat (PLAY_ROWS - p.y - 1)
    omega
  refine ⟨?_, ?_, ?_⟩
  · rw [hd]
    apply hddLoop_stops s p
    refine ⟨(PLAY_ROWS - p.y - 1).toNat, ?_, hex⟩
    simp only [PLAY_ROWS]
    omega
  · intro k h1 h2
    rw [hd] at h2
    exact hddLoop_min s p _ 0 k (by omega) h2
  · intro hy
    have hle : hddLoop s p 0 ((PLAY_ROWS - p.y).toNat + 1) ≤ (PLAY_ROWS - p.y - 1).toNat :=
      hddLoop_le s p _ 0 _ (Nat.zero_le _) (by simpa using hex)
    rw [hd]
    have := Int.toNat_le_toNat (le_refl (PLAY_ROWS - p.y - 1))
    simp only [PLAY_ROWS] at hy hle ⊢
    omega

/-- C10 witness: the overhang state instantiates the amended characterization. -/
theorem C10_witness :
    collides cex10 (descend ⟨Kind.O, 3, 0, 0⟩ ((hard_drop_distance cex10 : Int) + 1)) = true ∧
    (∀ k : Nat, 1 ≤ k → k ≤ hard_drop_distance cex10 →
      collides cex10 (descend ⟨Kind.O, 3, 0, 0⟩ (k : Int)) = false) ∧
    (-4 ≤ (3 : Int) ∧ (hard_drop_distance cex10 : Int) ≤ PLAY_ROWS + 4) :=
  ⟨(C10_thm cex10 ⟨Kind.O, 3, 0, 0⟩ rfl).1,
   (C10_thm cex10 ⟨Kind.O, 3, 0, 0⟩ rfl).2.1,
   by norm_num, (C10_thm cex10 ⟨Kind.O, 3, 0, 0⟩ rfl).2.2 (by norm_num)⟩

/-- C10 counterexample: in cex10 the loop stops on top of the overhang at
distance 7, yet translating the piece 17 rows down is also collision-free, so
the returned value is not the maximum collision-free downward translation the
claim describes. -/
theorem C10_cex :
    hard_drop_distance cex10 = 7 ∧
    collides cex10 (descend ⟨Kind.O, 3, 0, 0⟩ 17) = false ∧
    (7 : Nat) < 17 := by decide

/-- C4: locking a piece with a cell above the visible top aborts before any
write: the grid is untouched, the game-over flag is set, the reported clear
count is 0, and neither scoring nor a spawn happens (the current piece slot is
left as it was); the run loop's gravity branch then also skips score_lines. -/
theorem C4_thm (perms : List (List Kind)) (s : GameState) (p : Piece)
    (hc : s.current = some p) (hneg : ∃ c ∈ p.cells, c.2 < 0) :
    lock_piece perms s = ({ s with game_over := true }, 0) ∧
    gravityLockStep perms s = { s with game_over := true } := by
  obtain ⟨c, hmem, hlt⟩ := hneg
  have hpw := cells_pairwise_y p
  rcases hcell : p.cells with _ | ⟨c0, tl⟩
  · exact absurd hcell (cells_ne_nil p)
  · rw [hcell] at hpw hmem
    have hc0 : c0.2 < 0 := by
      rcases List.mem_cons.mp hmem with rfl | hin
      · exact hlt
      · exact lt_of_le_of_lt ((List.pairwise_cons.mp hpw).1 c hin) hlt
    have hmain : lock_piece perms s = ({ s with game_over := true }, 0) := by
      simp only [lock_piece, hc, hcell, lockLoop]
      rw [if_pos hc0]
    refine ⟨hmain, ?_⟩
    simp [gravityLockStep, hmain]

/-- C4 witness: a freshly spawned I piece sits entirely above the board; its
lock aborts into game over with the state otherwise untouched. -/
theorem C4_witness :
    lock_piece [] wit4 = ({ wit4 with game_over := true }, 0) ∧
    gravityLockStep [] wit4 = { wit4 with game_over := true } :=
  C4_thm [] wit4 ⟨Kind.I, 3, -2, 0⟩ rfl (by decide)

/-- C1 amended: the gravity-lock branch scores a clearing lock with the T-spin
argument fixed to none, so a lock out of a classified T-spin pose that clears
a single line (with no combo and no back-to-back pending) awards the plain
single-line 100 points; and the hard-drop path never invokes line scoring at
all, changing the score by exactly twice the drop distance whatever it
clears. -/
theorem C1_thm :
    (∀ (perms : List (List Kind)) (s : GameState) (p : Piece),
      s.current = some p → is_t_spin s p = TSpin.tspin →
      s.combo = -1 → s.back_to_back = false → (lock_piece perms s).2 = 1 →
      (gravityLockStep perms s).score = s.score + 100) ∧
    (∀ (perms : List (List Kind)) (s : GameState),
      (hardDropStep perms s).score = s.score + 2 * (hard_drop_distance s : Int)) := by
  constructor
  · intro perms s p hc hts hcmb hb2b hcl
    have hf := lock_piece_fields perms s
    simp only [gravityLockStep, hcl]
    rw [if_pos (by norm_num)]
    simp only [score_lines]
    rw [if_pos (by norm_num)]
    simp only [hf.1, hf.2.1, hf.2.2.1, hcmb, hb2b]
    norm_num
  · intro perms s
    cases hc : s.current with
    | none => simp [hardDropStep, hard_drop_distance, hc]
    | some p =>
      simp only [hardDropStep, hc]
      by_cases hd : (0 : Int) < (hard_drop_distance s : Int)
      · rw [if_pos hd]
        have hf := lock_piece_fields perms
          { s with score := s.score + 2 * (hard_drop_distance s : Int),
                   current := some (descend p (hard_drop_distance s : Int)) }
        rw [hf.1]
      · rw [if_neg hd]
        have h0 : (hard_drop_distance s : Int) = 0 := by omega
        rw [h0]
        ring

/-- C1 witness: the gravity part applied to the concrete T-spin-single state
s1C1 and the hard-drop part applied to the overhang state cex10. -/
theorem C1_witness :
    (gravityLockStep [] s1C1).score = s1C1.score + 100 ∧
    (hardDropStep [] cex10).score = cex10.score + 2 * (hard_drop_distance cex10 : Int) :=
  ⟨C1_thm.1 [] s1C1 ⟨Kind.T, 0, 17, 0⟩ rfl (by decide) (by decide) (by decide) (by decide),
   C1_thm.2 [] cex10⟩

/-- C1 counterexample: in s0C1 the clockwise rotation succeeds and classifies a
T-spin, the resulting state s1C1 locks clearing exactly one line, yet the
gravity lock awards the plain 100 points — not the 400 T-spin single base the
claim requires from the armed flag. -/
theorem C1_cex :
    (try_rotate s0C1 1).2 = (true, TSpin.tspin) ∧
    (try_rotate s0C1 1).1 = s1C1 ∧
    is_t_spin s1C1 ⟨Kind.T, 0, 17, 0⟩ = TSpin.tspin ∧
    (lock_piece [] s1C1).2 = 1 ∧
    (gravityLockStep [] s1C1).score = s1C1.score + 100 ∧
    (gravityLockStep [] s1C1).score ≠ s1C1.score + 400 := by decide

/-- C2: the scoring table of score_lines for a clearing call: combo always
increments, the back-to-back flag ends up set exactly for a difficult clear
(so it stays set when it already was), and the awarded points follow the
400/700/100 T-spin and 100/300/500/800 line tables plus 50 * combo when the
incremented combo is positive, the total multiplied by 3/2 with truncation
when the clear is difficult and back-to-back was pending; concretely a Tetris
followed by a T-spin single at combo 1 with back-to-back set awards 675. -/
theorem C2_thm :
    (∀ (s : GameState) (lines : Int) (ts : TSpin), 1 ≤ lines →
      (score_lines s lines ts).combo = s.combo + 1 ∧
      (score_lines s lines ts).back_to_back = decide (ts ≠ TSpin.none ∨ 4 ≤ lines) ∧
      (score_lines s lines ts).score = s.score +
        (if (ts ≠ TSpin.none ∨ 4 ≤ lines) ∧ s.back_to_back = true then
          ((if ts ≠ TSpin.none then
              if lines = 1 then 400 else if lines = 2 then 700 else 100
            else
              if lines = 1 then 100 else if lines = 2 then 300
              else if lines = 3 then 500 else 800)
           + (if 0 < s.combo + 1 then 50 * (s.combo + 1) else 0)) * 3 / 2
         else
          (if ts ≠ TSpin.none then
              if lines = 1 then 400 else if lines = 2 then 700 else 100
            else
              if lines = 1 then 100 else if lines = 2 then 300
              else if lines = 3 then 500 else 800)
           + (if 0 < s.combo + 1 then 50 * (s.combo + 1) else 0))) ∧
    ((score_lines GameState.init 4 TSpin.none).score = 800 ∧
     (score_lines GameState.init 4 TSpin.none).combo = 0 ∧
     (score_lines GameState.init 4 TSpin.none).back_to_back = true ∧
     (score_lines (score_lines GameState.init 4 TSpin.none) 1 TSpin.tspin).score =
       (score_lines GameState.init 4 TSpin.none).score + 675) := by
  constructor
  · intro s lines ts h
    have h0 : (0 : Int) < lines := by omega
    refine ⟨?_, ?_, ?_⟩ <;>
      simp only [score_lines, if_pos h0] <;>
      rcases ts with _ | _ <;>
      by_cases h1 : lines = 1 <;> by_cases h2 : lines = 2 <;> by_cases h3 : lines = 3 <;>
      by_cases h4 : (4 : Int) ≤ lines <;>
      by_cases hcmb : 0 < s.combo + 1 <;> cases hb : s.back_to_back <;>
      simp_all <;> omega
  · refine ⟨by decide, by decide, by decide, by decide⟩

/-- C2 witness: the combo component instantiated on a plain double. -/
theorem C2_witness :
    (score_lines GameState.init 2 TSpin.none).combo = GameState.init.combo + 1 :=
  (C2_thm.1 GameState.init 2 TSpin.none (by norm_num)).1

/-- C3 amended: is_t_spin examines the four corners of the fixed 3x3 box at
columns x..x+2 and rows y..y+2 of the piece's 4x4 frame (these are the
diagonal neighbors of the T's center cell only in rotation 3), counting a
corner as occupied when out of bounds or locked, classifying a T-spin exactly
when at least 3 of the 4 are occupied; non-T pieces always get none, and a
successful rotation reports exactly the classification of the piece it
installs. -/
theorem C3_thm :
    (∀ (s : GameState) (p : Piece), p.kind ≠ Kind.T → is_t_spin s p = TSpin.none) ∧
    (∀ (s : GameState) (p : Piece), p.kind = Kind.T →
      (is_t_spin s p = TSpin.tspin ↔
        3 ≤ ((tspinCorners p).filter (cornerOccupied s)).length)) ∧
    (∀ (s : GameState) (dr : Int), (try_rotate s dr).2.1 = true →
      ∃ p, (try_rotate s dr).1.current = some p ∧
        (try_rotate s dr).2.2 = is_t_spin s p) := by
  refine ⟨?_, ?_, ?_⟩
  · intro s p h
    simp [is_t_spin, h]
  · intro s p h
    rw [is_t_spin, if_neg (by simp [h])]
    by_cases h3 : 3 ≤ ((tspinCorners p).filter (cornerOccupied s)).length
    · simp [h3]
    · simp [h3]
  · intro s dr hok
    cases hc : s.current with
    | none => rw [try_rotate, hc] at hok; simp at hok
    | some cur =>
      simp only [try_rotate, hc, rotateLoop_eq_find] at hok ⊢
      cases hfind : List.find?
          (fun off => !collides s (rotCand cur (rotTarget cur dr) off))
          (kicksFor cur.kind (cur.r % ((ROTATED cur.kind).length : Int))
            (rotTarget cur dr)) with
      | none => rw [hfind] at hok; simp at hok
      | some off =>
        exact ⟨rotCand cur (rotTarget cur dr) off, rfl, rfl⟩

/-- C3 witness: each component instantiated — a non-T piece in cex3, the
corner-count characterization at the rotated T pose, and the classification
reported by the successful rotation. -/
theorem C3_witness :
    is_t_spin cex3 ⟨Kind.O, 3, 5, 0⟩ = TSpin.none ∧
    (is_t_spin cex3 ⟨Kind.T, 3, 5, 0⟩ = TSpin.tspin ↔
      3 ≤ ((tspinCorners ⟨Kind.T, 3, 5, 0⟩).filter (cornerOccupied cex3)).length) ∧
    (∃ p, (try_rotate cex3 1).1.current = some p ∧
      (try_rotate cex3 1).2.2 = is_t_spin cex3 p) :=
  ⟨C3_thm.1 cex3 ⟨Kind.O, 3, 5, 0⟩ (by decide),
   C3_thm.2.1 cex3 ⟨Kind.T, 3, 5, 0⟩ rfl,
   C3_thm.2.2 cex3 1 (by decide)⟩

/-- C3 counterexample: in cex3 the rotation into the pose at (3, 5) succeeds
and is classified a T-spin by the source, although none of the diagonal
neighbors of the T's center cell (the corners the claim describes) is
occupied: the examined box is not anchored at the center. -/
theorem C3_cex :
    (try_rotate cex3 1).2 = (true, TSpin.tspin) ∧
    (try_rotate cex3 1).1.current = some ⟨Kind.T, 3, 5, 0⟩ ∧
    is_t_spin_specModel cex3 ⟨Kind.T, 3, 5, 0⟩ = TSpin.none := by decide

/-- C5: try_rotate reduces the target index modulo the kind's rotation count,
falls back to the single zero offset when the (from, to) pair is unlisted,
installs the first non-colliding candidate in table order, and fails leaving
the state unchanged when every candidate collides. -/
theorem C5_thm (s : GameState) (cur : Piece) (dr : Int) (h : s.current = some cur) :
    (kicksRaw cur.kind (cur.r % ((ROTATED cur.kind).length : Int)) (rotTarget cur dr)
        = none →
      kicksFor cur.kind (cur.r % ((ROTATED cur.kind).length : Int)) (rotTarget cur dr)
        = [(0, 0)]) ∧
    ((kicksFor cur.kind (cur.r % ((ROTATED cur.kind).length : Int))
          (rotTarget cur dr)).find?
        (fun off => !collides s (rotCand cur (rotTarget cur dr) off)) = none →
      try_rotate s dr = (s, false, TSpin.none)) ∧
    (∀ off,
      (kicksFor cur.kind (cur.r % ((ROTATED cur.kind).length : Int))
          (rotTarget cur dr)).find?
        (fun off2 => !collides s (rotCand cur (rotTarget cur dr) off2)) = some off →
      try_rotate s dr =
        ({ s with current := some (rotCand cur (rotTarget cur dr) off) }, true,
         is_t_spin s (rotCand cur (rotTarget cur dr) off))) := by
  refine ⟨?_, ?_, ?_⟩
  · intro hnone
    simp [kicksFor, hnone]
  · intro hfind
    simp only [try_rotate, h, rotateLoop_eq_find]
    rw [hfind]
  · intro off hfind
    simp only [try_rotate, h, rotateLoop_eq_find]
    rw [hfind]

/-- C5 witness: in wit5 the zero-offset candidate of the clockwise T rotation
is blocked and exactly the second table candidate (-1, 0) is installed. -/
theorem C5_witness :
    try_rotate wit5 1 =
      ({ wit5 with current := some (rotCand ⟨Kind.T, 3, 5, 0⟩ (rotTarget ⟨Kind.T, 3, 5, 0⟩ 1) (-1, 0)) },
       true,
       is_t_spin wit5 (rotCand ⟨Kind.T, 3, 5, 0⟩ (rotTarget ⟨Kind.T, 3, 5, 0⟩ 1) (-1, 0))) :=
  (C5_thm wit5 ⟨Kind.T, 3, 5, 0⟩ 1 rfl).2.2 (-1, 0) (by decide)

/-- C6 amended: spawning pops the replenished queue's front kind, constructs
the piece at (spawn_x kind, -2, 0), sets game over exactly when that pose
collides with the board — and installs the piece as the current piece in
either case (the source's spawn_next assigns current unconditionally). -/
theorem C6_thm (s : GameState) (perms : List (List Kind)) (k : Kind)
    (rest : List Kind)
    (h : (fillQueue 5 (s, perms)).1.next_queue = k :: rest) :
    (spawn_next s perms).1.current = some ⟨k, spawn_x k, -2, 0⟩ ∧
    (spawn_next s perms).1.game_over =
      (s.game_over || collides s ⟨k, spawn_x k, -2, 0⟩) := by
  obtain ⟨b, q, hf⟩ := fillQueue_shape 5 (s, perms)
  have hq : q = k :: rest := by rw [hf] at h; simpa using h
  subst hq
  simp only [spawn_next]
  generalize hg : fillQueue 5 (s, perms) = sp at hf h ⊢
  obtain ⟨s1, ps1⟩ := sp
  simp only at hf
  subst hf
  have hcoleq : collides { s with bag := b, next_queue := rest } ⟨k, spawn_x k, -2, 0⟩
      = collides s ⟨k, spawn_x k, -2, 0⟩ := collides_eq_of_grid _ _ _ rfl
  rw [← hcoleq]
  cases hcol : collides { s with bag := b, next_queue := rest } ⟨k, spawn_x k, -2, 0⟩ <;>
    simp [hcol]

/-- C6 witness: in cex6 the amended description instantiates — the O piece is
installed at the spawn pose and game over reflects its collision. -/
theorem C6_witness :
    (spawn_next cex6 []).1.current = some ⟨Kind.O, spawn_x Kind.O, -2, 0⟩ ∧
    (spawn_next cex6 []).1.game_over =
      (cex6.game_over || collides cex6 ⟨Kind.O, spawn_x Kind.O, -2, 0⟩) :=
  C6_thm cex6 [] Kind.O [Kind.I, Kind.T, Kind.S, Kind.Z] (by decide)

/-- C6 counterexample: in cex6 the spawned O piece collides, the game-over
flag is set — and the colliding piece is nevertheless installed as the active
piece, contradicting the claim that it is not installed. -/
theorem C6_cex :
    (spawn_next cex6 []).1.game_over = true ∧
    (spawn_next cex6 []).1.current = some ⟨Kind.O, 3, -2, 0⟩ ∧
    collides cex6 ⟨Kind.O, 3, -2, 0⟩ = true := by decide

/-- The rotation candidate loop never touches the game-over flag. -/
theorem rotateLoop_game_over (s : GameState) (cur : Piece) (to_r : Int) :
    ∀ l, ((rotateLoop s cur to_r l).1).game_over = s.game_over
  | [] => rfl
  | off :: rest => by
    by_cases hcol : collides s (rotCand cur to_r off)
    · simpa [rotateLoop, hcol] using rotateLoop_game_over s cur to_r rest
    · simp [rotateLoop, hcol]

/-- C7 amended: the run loop's input dispatch is a no-op on every gameplay key
once the game-over flag is set (the guard lives in the event handler, not in
the operations themselves — see the counterexample); the operations never
clear the flag once set; and a freshly constructed game starts with the flag
clear. -/
theorem C7_thm :
    (∀ (perms : List (List Kind)) (s : GameState) (inp : GameInput),
      s.game_over = true → handleGameInput perms s inp = s) ∧
    (∀ (s : GameState) (dx dy : Int), s.game_over = true →
      ((try_move s dx dy).1).game_over = true) ∧
    (∀ (s : GameState) (dr : Int), s.game_over = true →
      ((try_rotate s dr).1).game_over = true) ∧
    (∀ (perms : List (List Kind)) (s : GameState), s.game_over = true →
      ((hold_swap perms s).1).game_over = true) ∧
    (∀ lvl : Int, (new_game lvl [basePerm]).game_over = false) := by
  refine ⟨?_, ?_, ?_, ?_, ?_⟩
  · intro perms s inp h
    simp [handleGameInput, h]
  · intro s dx dy h
    cases hc : s.current with
    | none => simpa [try_move, hc] using h
    | some cur =>
      by_cases hcol : collides s ⟨cur.kind, cur.x + dx, cur.y + dy, cur.r⟩ <;>
        simp [try_move, hc, hcol, h]
  · intro s dr h
    cases hc : s.current with
    | none => simpa [try_rotate, hc] using h
    | some cur =>
      simp only [try_rotate, hc]
      rw [rotateLoop_game_over]
      exact h
  · intro perms s h
    cases hc : s.current with
    | none => simpa [hold_swap, hc] using h
    | some cur =>
      by_cases hch : s.can_hold
      · cases hh : s.hold with
        | none =>
          simp only [hold_swap, hc, hch, hh, Bool.not_true, Bool.false_eq_true, if_false]
          exact spawn_next_game_over _ perms h
        | some hk =>
          simp only [hold_swap, hc, hch, hh, Bool.not_true, Bool.false_eq_true, if_false]
          split <;> simp [h]
      · simp [hold_swap, hc, hch, h]
  · intro lvl
    rfl

/-- C7 witness: the guard, the three monotonicity components and the fresh
state instantiated concretely on the game-over state cex7. -/
theorem C7_witness :
    handleGameInput [] cex7 GameInput.moveLeft = cex7 ∧
    ((try_move cex7 1 0).1).game_over = true ∧
    ((try_rotate cex7 1).1).game_over = true ∧
    ((hold_swap [] cex7).1).game_over = true ∧
    (new_game 1 [basePerm]).game_over = false :=
  ⟨C7_thm.1 [] cex7 GameInput.moveLeft rfl, C7_thm.2.1 cex7 1 0 rfl,
   C7_thm.2.2.1 cex7 1 rfl, C7_thm.2.2.2.1 [] cex7 rfl, C7_thm.2.2.2.2 1⟩

/-- C7 counterexample: on the game-over state cex7 the raw try_move operation
is not a no-op — it moves the current piece — so the claim that the operations
themselves are no-ops under the flag is false (only the event-loop guard makes
them unreachable). -/
theorem C7_cex :
    cex7.game_over = true ∧
    (try_move cex7 1 0).1 ≠ cex7 ∧
    (try_move cex7 1 0).1.current = some ⟨Kind.T, 4, 5, 0⟩ := by decide

/-- C8 amended: from_dict copies a present grid verbatim with no dimension or
tag validation, so load accepts malformed boards instead of failing. -/
theorem C8_thm (d : SaveData) (g : List (List (Option Kind)))
    (h : d.grid = some g) : (from_dict d).grid = g := by
  simp [from_dict, h]

/-- C8 witness: the verbatim copy applied to the malformed zero-row grid. -/
theorem C8_witness : (from_dict dbad8).grid = [] :=
  C8_thm dbad8 [] rfl

/-- C8 counterexample: the malformed save dictionary dbad8 (zero board rows)
is accepted by from_dict, which returns a full Game State whose board violates
the 20-row invariant, instead of load failing with an error. -/
theorem C8_cex :
    from_dict dbad8 = { GameState.init with grid := [] } ∧
    (from_dict dbad8).grid.length = 0 ∧
    PLAY_ROWS.toNat = 20 := by decide

/-- C9: deserializing a serialized state reproduces every persisted field
exactly, and therefore every collision query answers identically on the
round-tripped state. -/
theorem C9_thm (s : GameState) :
    (from_dict (to_dict s)).grid = s.grid ∧
    (from_dict (to_dict s)).bag = s.bag ∧
    (from_dict (to_dict s)).next_queue = s.next_queue ∧
    (from_dict (to_dict s)).hold = s.hold ∧
    (from_dict (to_dict s)).can_hold = s.can_hold ∧
    (from_dict (to_dict s)).current = s.current ∧
    (from_dict (to_dict s)).score = s.score ∧
    (from_dict (to_dict s)).lines = s.lines ∧
    (from_dict (to_dict s)).level = s.level ∧
    (from_dict (to_dict s)).combo = s.combo ∧
    (from_dict (to_dict s)).back_to_back = s.back_to_back ∧
    (from_dict (to_dict s)).game_over = s.game_over ∧
    (∀ p : Piece, collides (from_dict (to_dict s)) p = collides s p) := by
  refine ⟨rfl, rfl, rfl, rfl, rfl, ?_, rfl, rfl, rfl, rfl, rfl, rfl, ?_⟩
  · have hform : (from_dict (to_dict s)).current
        = (s.current.map fun p : Piece => SavedPiece.mk p.kind p.x p.y p.r).map
            (fun c : SavedPiece => Piece.mk c.kind c.x c.y c.r) := rfl
    rw [hform, Option.map_map]
    cases hcc : s.current with
    | none => rfl
    | some p => rfl
  · intro p
    exact collides_eq_of_grid _ _ _ rfl

end Tetris






